import Mathlib

/-!
Verification development for the Watcard Tracker repository.

The repository's decision logic lives in two places:
  * `extension/content.js` — the scraper: `categorize` (terminal classifier)
    and `scrapeCurrentPage` (row normalization: deposit detection, amount
    parsing, NaN rejection);
  * the dashboard component (`page.tsx`, reproduced in the repository's
    README) — the aggregation engine (`purchases`, `totalSpent`,
    `elapsedDays`, `getTimeBucket`, `cleanTerminal`, `getPersona`, the
    runway forecast, `handleGenerate`, `sortedTxns`).

Each JavaScript/TypeScript function is shallowly embedded below as an
executable Lean function.  JavaScript numbers are modelled as `ℚ`
(the claims under verification do not hinge on binary floating-point
rounding); a JavaScript `NaN` is modelled as `Option.none`.  String
primitives (`includes`, `split`, `trim`, `toUpperCase`, `parseInt`,
`parseFloat`, first-occurrence `replace`) are modelled over `List Char`
for the ASCII data the program manipulates.
-/

namespace Watcard

/-! ### JavaScript string primitives -/

/-- `leadsWith p l` is `true` iff `p` is an initial segment of `l`. -/
def leadsWith : List Char → List Char → Bool
  | [], _ => true
  | _ :: _, [] => false
  | p :: ps, c :: cs => p = c && leadsWith ps cs

/-- `true` iff `pat` occurs as a contiguous sublist of the second argument. -/
def containsSub (pat : List Char) : List Char → Bool
  | [] => leadsWith pat []
  | c :: rest => leadsWith pat (c :: rest) || containsSub pat rest

/-- JavaScript `s.includes(pat)`: substring containment. -/
def jsIncludes (s pat : String) : Bool :=
  containsSub pat.toList s.toList

/-- JavaScript `s.toUpperCase()` restricted to ASCII data. -/
def jsToUpper (s : String) : String :=
  String.mk (s.toList.map Char.toUpper)

/-- JavaScript `s.split(sep)` for a one-character separator.
`splitChar ':' "".toList = [[]]` and separators at the ends produce empty
pieces, matching JavaScript. -/
def splitChar (sep : Char) : List Char → List (List Char)
  | [] => [[]]
  | c :: rest =>
    if c = sep then [] :: splitChar sep rest
    else
      match splitChar sep rest with
      | [] => [[c]]
      | h :: t => (c :: h) :: t

/-- The whitespace class used by JavaScript `trim` on the data in play. -/
def isSpaceChar (c : Char) : Bool :=
  c = ' ' || c = '\t' || c = '\n' || c = '\r'

/-- JavaScript `s.trim()` on the character list. -/
def trimChars (l : List Char) : List Char :=
  ((l.dropWhile isSpaceChar).reverse.dropWhile isSpaceChar).reverse

/-- JavaScript `s.trim()`. -/
def jsTrim (s : String) : String :=
  String.mk (trimChars s.toList)

/-- Digit test for ASCII decimal digits. -/
def isDigitChar (c : Char) : Bool :=
  '0' ≤ c && c ≤ '9'

/-- Numeric value of a list of ASCII digits, most significant first. -/
def digitsToNat (l : List Char) : Nat :=
  l.foldl (fun acc c => acc * 10 + (c.toNat - '0'.toNat)) 0

/-- JavaScript `parseInt(s, 10)`: skip leading whitespace, read an optional
sign and then a maximal run of decimal digits; `NaN` (here `none`) when no
digit is present. -/
def jsParseInt (s : String) : Option Int :=
  let l := s.toList.dropWhile isSpaceChar
  let (sign, l) : Int × List Char :=
    match l with
    | '-' :: rest => (-1, rest)
    | '+' :: rest => (1, rest)
    | _ => (1, l)
  let ds := l.takeWhile isDigitChar
  if ds.isEmpty then none else some (sign * digitsToNat ds)

/-- Fractional value of the digits after the decimal point. -/
def fracValue (l : List Char) : ℚ :=
  l.foldr (fun c acc => ((c.toNat - '0'.toNat : ℕ) + acc) / 10) 0

/-- JavaScript `parseFloat(s)` for plain decimal notation: skip leading
whitespace, read an optional sign, then digits with an optional single
decimal point; `NaN` (here `none`) when no digit is present.  (Exponent
and `Infinity` forms never arise in the scraped data and are not
modelled.) -/
def jsParseFloat (s : String) : Option ℚ :=
  let l := s.toList.dropWhile isSpaceChar
  let (sign, l) : ℚ × List Char :=
    match l with
    | '-' :: rest => (-1, rest)
    | '+' :: rest => (1, rest)
    | _ => (1, l)
  let intDs := l.takeWhile isDigitChar
  let rest := l.drop intDs.length
  match rest with
  | '.' :: rest2 =>
    let fracDs := rest2.takeWhile isDigitChar
    if intDs.isEmpty && fracDs.isEmpty then none
    else some (sign * ((digitsToNat intDs : ℚ) + fracValue fracDs))
  | _ =>
    if intDs.isEmpty then none else some (sign * (digitsToNat intDs : ℚ))

/-- JavaScript `s.replace(pat, "")` for a literal pattern: remove the first
occurrence of `pat`, if any. -/
def removeFirst (pat : List Char) : List Char → List Char
  | [] => []
  | c :: rest =>
    if leadsWith pat (c :: rest) then (c :: rest).drop pat.length
    else c :: removeFirst pat rest

/-! ### Terminal classifier (`categorize`, `extension/content.js` lines 2–17) -/

/-- `categorize` from `extension/content.js`: upper-cases the terminal
string and walks an ordered rule list, first match winning. -/
def categorize (terminal : String) : String :=
  let t := jsToUpper terminal
  if jsIncludes t "MARKET" then "Groceries"
  else if jsIncludes t "LAUNDRY" || jsIncludes t "WES" then "Laundry"
  else if jsIncludes t "PRINT" || jsIncludes t "BROWSERS" then "Academic"
  else if jsIncludes t "MUDIES"    || jsIncludes t "BRUBAKERS" ||
          jsIncludes t "TH-"       || jsIncludes t "TH "       ||
          jsIncludes t "LIQUID"    || jsIncludes t "TERIYAKI"  ||
          jsIncludes t "SUBWAY"    || jsIncludes t "WILLIAMS"  ||
          jsIncludes t "FRESH"     || jsIncludes t "JUGO"      ||
          jsIncludes t "PITA"      || jsIncludes t "STARBUCKS" ||
          jsIncludes t "QUESADA"   || jsIncludes t "DC" then "Dining"
  else "Other"

/-- The closed category set surfaced to the UI layer. -/
def categoryList : List String :=
  ["Groceries", "Laundry", "Academic", "Dining", "Other"]

/-! ### Canonical transactions and the purchases subset -/

/-- The dashboard's `Transaction` interface. -/
structure Tx where
  date : String
  terminal : String
  amount : ℚ
  isDeposit : Bool
  category : String
  deriving DecidableEq

/-- `purchases` memo: the transactions with `isDeposit` false. -/
def purchases (transactions : List Tx) : List Tx :=
  transactions.filter (fun t => !t.isDeposit)

/-- `totalSpent` memo: `purchases.reduce((s, t) => s + t.amount, 0)`. -/
def totalSpent (transactions : List Tx) : ℚ :=
  (purchases transactions).foldl (fun s t => s + t.amount) 0

/-- Lexicographic comparison of character lists, the order JavaScript uses
to compare the program's ASCII date strings. -/
def keyLe (a b : List Char) : Bool :=
  decide (a ≤ b)

/-- `sortedTxns` memo: the full history, all entries including deposits,
sorted newest first by `b.date.localeCompare(a.date)`. -/
def sortedTxns (transactions : List Tx) : List Tx :=
  transactions.mergeSort (fun a b => keyLe b.date.toList a.date.toList)

/-! ### Elapsed days (`elapsedDays` memo) -/

/-- Epoch day number of a Gregorian calendar date (the civil-from-days
inverse used by JavaScript `Date` for `"YYYY-MM-DD"` strings, which are
read as UTC midnight). -/
def daysFromCivil (y : Int) (m d : Nat) : Int :=
  let y' : Int := if m ≤ 2 then y - 1 else y
  let era : Int := Int.fdiv y' 400
  let yoe : Int := y' - era * 400
  let mp : Int := Int.emod ((m : Int) + 9) 12
  let doy : Int := Int.fdiv (153 * mp + 2) 5 + (d : Int) - 1
  let doe : Int := yoe * 365 + Int.fdiv yoe 4 - Int.fdiv yoe 100 + doy
  era * 146097 + doe - 719468

/-- Parse a `YYYY-MM-DD` date string into year, month, day.  Strings
outside this shape make `new Date(s)` produce an invalid date (`NaN`
time value), modelled as `none`. -/
def parseYMD (l : List Char) : Option (Int × Nat × Nat) :=
  match splitChar '-' l with
  | [ys, ms, ds] =>
    if !ys.isEmpty && ys.all isDigitChar && !ms.isEmpty && ms.all isDigitChar
        && !ds.isEmpty && ds.all isDigitChar then
      let m := digitsToNat ms
      let d := digitsToNat ds
      if 1 ≤ m ∧ m ≤ 12 ∧ 1 ≤ d ∧ d ≤ 31 then
        some ((digitsToNat ys : Int), m, d)
      else none
    else none
  | _ => none

/-- `new Date(ymd).getTime()` for a date-only string: milliseconds of UTC
midnight of that day; `none` models the `NaN` time value of an invalid
date. -/
def jsDateMs (l : List Char) : Option ℚ :=
  (parseYMD l).map (fun t => (daysFromCivil t.1 t.2.1 t.2.2 : ℚ) * 86400000)

/-- Floor of a rational number as an integer. -/
def ratFloor (q : ℚ) : Int :=
  Int.fdiv q.num q.den

/-- JavaScript `Math.round`: half-up, toward positive infinity on ties. -/
def jsRound (q : ℚ) : Int :=
  ratFloor (q + 1 / 2)

/-- JavaScript integer truncation toward zero (`Math.trunc`, and the
`ToIntegerOrInfinity` conversion applied to fractional day amounts). -/
def jsTrunc (q : ℚ) : Int :=
  Int.tdiv q.num q.den

/-- The date portion of a transaction: `t.date.split(" ")[0]`. -/
def dateKey (t : Tx) : List Char :=
  (splitChar ' ' t.date.toList).headD []

/-- `elapsedDays` memo: 1 for no purchases; otherwise sort the date
portions, subtract the epoch milliseconds of the first from those of the
last, divide by 86 400 000 and take `Math.max(1, Math.round(...))`.
`none` models the `NaN` produced when a date portion fails to parse. -/
def elapsedDays (ps : List Tx) : Option ℚ :=
  match ps with
  | [] => some 1
  | _ :: _ =>
    let ymd := (ps.map dateKey).mergeSort keyLe
    match jsDateMs (ymd.getLastD []), jsDateMs (ymd.headD []) with
    | some b, some a => some (max 1 ((jsRound ((b - a) / 86400000) : Int) : ℚ))
    | _, _ => none

/-! ### Time-of-day bucketing (`getTimeBucket`) -/

/-- The hour as `getTimeBucket` extracts it:
`parseInt((dateStr.split(" ")[1] ?? "0").split(":")[0], 10)`;
`none` models `NaN`. -/
def hourOf (dateStr : String) : Option Int :=
  let timePart := (splitChar ' ' dateStr.toList).getD 1 ['0']
  let hTok := (splitChar ':' timePart).getD 0 []
  jsParseInt (String.mk hTok)

/-- `getTimeBucket` from the dashboard: fixed closed-open hour buckets,
with every comparison failing on `NaN` so unparsable hours land in
"Late Night". -/
def getTimeBucket (dateStr : String) : String :=
  match hourOf dateStr with
  | none => "Late Night"
  | some h =>
    if 5 ≤ h ∧ h < 11 then "Morning"
    else if 11 ≤ h ∧ h < 16 then "Lunch"
    else if 16 ≤ h ∧ h < 21 then "Dinner"
    else "Late Night"

/-- The four bucket labels. -/
def bucketList : List String :=
  ["Morning", "Lunch", "Dinner", "Late Night"]

/-! ### Terminal display-name cleaning (`cleanTerminal`) -/

/-- JavaScript `array.join(sep)` for a one-character separator. -/
def joinChar (sep : Char) : List (List Char) → List Char
  | [] => []
  | [h] => h
  | h :: t => h ++ sep :: joinChar sep t

/-- Step 1 of `cleanTerminal` as the source writes it:
`raw.includes(":") ? raw.split(":").slice(1).join(":").trim() : raw.trim()`.
Note the `trim` applied in both branches. -/
def afterColon (raw : String) : List Char :=
  let l := raw.toList
  if containsSub [':'] l then trimChars (joinChar ':' ((splitChar ':' l).drop 1))
  else trimChars l

/-- The case-insensitive anchored `replace`: strip a leading
`POS-FS-` regardless of letter case. -/
def stripPosFs (l : List Char) : List Char :=
  if (l.take 7).map Char.toUpper = "POS-FS-".toList then l.drop 7 else l

/-- The `replace` with regex dash-digits-end: strip a trailing dash
followed by one or more digits. -/
def stripTrailNum (l : List Char) : List Char :=
  let r := l.reverse
  let ds := r.takeWhile isDigitChar
  if ds.isEmpty then l
  else
    match r.drop ds.length with
    | '-' :: rest => rest.reverse
    | _ => l

/-- The `replace` with regex dash-end: strip one trailing dash. -/
def stripTrailDash (l : List Char) : List Char :=
  match l.reverse with
  | '-' :: rest => rest.reverse
  | _ => l

/-- `cleanTerminal` from the dashboard, steps in source order: colon cut
(with trim), prefix strip, trailing `-digits` strip, trailing `-` strip,
final trim. -/
def cleanTerminal (raw : String) : String :=
  String.mk (trimChars (stripTrailDash (stripTrailNum (stripPosFs (afterColon raw)))))

/-- The colon cut exactly as the claim's step list words it: discard up to
the first colon if present, keep the remainder — with no trim before the
prefix strip.  Written from the claim for comparison with `afterColon`. -/
def afterColonPlain (raw : String) : List Char :=
  let l := raw.toList
  if containsSub [':'] l then joinChar ':' ((splitChar ':' l).drop 1)
  else l

/-- The cleaning pipeline exactly as the claim lists its steps: colon cut,
prefix strip, `-digits` strip, `-` strip, one final trim.  Written from
the claim's words for comparison with `cleanTerminal`. -/
def claimCleanSteps (raw : String) : String :=
  String.mk (trimChars (stripTrailDash (stripTrailNum (stripPosFs (afterColonPlain raw)))))

/-! ### Persona classifier (`getPersona`) -/

/-- The argument record of `getPersona`. -/
structure PersonaMetrics where
  totalSpent : ℚ
  coffeeTax : ℚ
  junkFoodTax : ℚ
  lateNightSpend : ℚ
  dailyBurnRate : ℚ
  diningTotal : ℚ
  groceriesTotal : ℚ
  academicTotal : ℚ

/-- `lnPct`: late-night fraction of `totalSpent`, 0 when `totalSpent` is
not positive. -/
def lnPct (p : PersonaMetrics) : ℚ :=
  if p.totalSpent > 0 then p.lateNightSpend / p.totalSpent else 0

/-- `coffPct`: coffee fraction of `totalSpent`, 0 when `totalSpent` is not
positive. -/
def coffPct (p : PersonaMetrics) : ℚ :=
  if p.totalSpent > 0 then p.coffeeTax / p.totalSpent else 0

/-- `dinePct`: dining fraction of `totalSpent`, 0 when `totalSpent` is not
positive. -/
def dinePct (p : PersonaMetrics) : ℚ :=
  if p.totalSpent > 0 then p.diningTotal / p.totalSpent else 0

/-- `grocPct`: groceries fraction of `totalSpent`, 0 when `totalSpent` is
not positive. -/
def grocPct (p : PersonaMetrics) : ℚ :=
  if p.totalSpent > 0 then p.groceriesTotal / p.totalSpent else 0

/-- `getPersona` from the dashboard, reduced to the selected persona's
title (the other fields of the returned object are presentation strings
determined by the same branch).  The source's ordered `if`/`return`
chain is preserved exactly. -/
def getPersona (p : PersonaMetrics) : String :=
  if lnPct p > 25 / 100 then "The Midnight Snacker"
  else if p.coffeeTax > 80 ∨ coffPct p > 15 / 100 then "The Caffeine Addict"
  else if p.junkFoodTax > 40 then "The Late-Night Gourmet"
  else if dinePct p > 55 / 100 then "The Campus Foodie"
  else if grocPct p > 45 / 100 then "The Smart Shopper"
  else if p.academicTotal > 25 then "The Scholar"
  else if p.dailyBurnRate < 8 then "The Budget Master"
  else "The Campus Explorer"

/-! ### Scraper row normalization (`scrapeCurrentPage`) -/

/-- One table row's `td` text contents, already `textContent`-extracted.
`parseRow` is the body of the `rows.forEach` in `scrapeCurrentPage`:
rows with fewer than 7 cells are skipped, a deposit is a raw amount with
no minus sign, the amount is `Math.abs(parseFloat(raw.replace("$", "")))`,
and a `NaN` amount skips the row. -/
def parseRow (cells : List String) : Option Tx :=
  if cells.length < 7 then none
  else
    let date := jsTrim (cells.getD 0 "")
    let terminal := jsTrim (cells.getD 2 "")
    let rawAmount := jsTrim (cells.getD 6 "")
    let isDep := !(jsIncludes rawAmount "-")
    match jsParseFloat (String.mk (removeFirst ['$'] rawAmount.toList)) with
    | none => none
    | some a =>
      some { date := date, terminal := terminal, amount := |a|,
             isDeposit := isDep, category := categorize terminal }

/-- `scrapeCurrentPage` from `extension/content.js`: push the parsed
transaction of every row that survives normalization; this list is the
function's entire result. -/
def scrapeCurrentPage (rows : List (List String)) : List Tx :=
  rows.filterMap parseRow

/-- Modelled from the spec: the rejection count the normalizer is claimed
to report to its caller — the number of record-shaped rows (at least 7
cells) whose amount parses to `NaN`.  `scrapeCurrentPage` in
`extension/content.js` maintains no such counter; this definition exists
only to state that fact. -/
def rejectedCount (rows : List (List String)) : Nat :=
  rows.countP (fun cells =>
    decide (7 ≤ cells.length) &&
      (jsParseFloat (String.mk (removeFirst ['$'] (jsTrim (cells.getD 6 "")).toList))).isNone)

/-! ### Runway forecast -/

/-- The pieces of `new Date()` the forecast reads: `getFullYear()`,
`getMonth()` (0-based month index) and the epoch-millisecond value. -/
structure Moment where
  year : Int
  monthIdx : Nat
  epochMs : ℚ

/-- Epoch milliseconds of local midnight of a civil date, as
`new Date(year, monthIdx, day)` produces in the naive (offset-free)
calendar model. -/
def civilMs (y : Int) (m d : Nat) : ℚ :=
  (daysFromCivil y m d : ℚ) * 86400000

/-- The semester-end reference date of the forecast:
`now.getMonth() <= 3 ? new Date(y, 3, 30) : new Date(y, 11, 15)` —
April 30 for month indices 0–3 (January through April), December 15
otherwise. -/
def semEnd (now : Moment) : ℚ :=
  if now.monthIdx ≤ 3 then civilMs now.year 4 30 else civilMs now.year 12 15

/-- The semester-end reference date exactly as the claim words it:
April 30 of the current year when the current month index is ≤ March
(index 2), December 15 otherwise.  Written from the claim for comparison
with `semEnd`. -/
def claimSemEnd (now : Moment) : ℚ :=
  if now.monthIdx ≤ 2 then civilMs now.year 4 30 else civilMs now.year 12 15

/-- The `{ runoutDate, daysLeft, runningOut }` result of the forecast
memo; `none` models the `null` of a missing forecast. -/
structure Runway where
  runoutDate : Option ℚ
  daysLeft : Option Int
  runningOut : Bool
  deriving DecidableEq

/-- `date-fns` `addDays(now, amount)`: the day amount passes through
JavaScript integer conversion (truncation toward zero) before being added
via `setDate`. -/
def addDaysMs (nowMs amount : ℚ) : ℚ :=
  nowMs + (jsTrunc amount : ℚ) * 86400000

/-- `date-fns` `differenceInDays(a, b)`: full days between the two
instants, fractional part truncated. -/
def differenceInDays (aMs bMs : ℚ) : Int :=
  jsTrunc ((aMs - bMs) / 86400000)

/-- The runway forecast memo of the dashboard: `rDays = bal / rate` when
both are positive (else 0), `runoutDate = addDays(now, rDays)` when
`rDays > 0` (else `null`), `daysLeft = differenceInDays(runoutDate, now)`,
`runningOut = isBefore(runoutDate, semEnd)`. -/
def runwayForecast (now : Moment) (bal dailyBurnRate : ℚ) : Runway :=
  let rDays : ℚ := if bal > 0 ∧ dailyBurnRate > 0 then bal / dailyBurnRate else 0
  if rDays > 0 then
    let rDate := addDaysMs now.epochMs rDays
    { runoutDate := some rDate,
      daysLeft := some (differenceInDays rDate now.epochMs),
      runningOut := decide (rDate < semEnd now) }
  else { runoutDate := none, daysLeft := none, runningOut := false }

/-! ### Ingestion (`handleGenerate`) -/

/-- JSON values, the possible results of `JSON.parse`. -/
inductive JValue where
  | jnull : JValue
  | jbool : Bool → JValue
  | jnum : ℚ → JValue
  | jstr : String → JValue
  | jarr : List JValue → JValue
  | jobj : List (String × JValue) → JValue

/-- The dashboard state `handleGenerate` touches: the held transaction
list (every derived metric is a pure `useMemo` function of it) and the
error message. -/
structure DashState where
  transactions : Option (List JValue)
  error : String

/-- `handleGenerate` from the dashboard.  `rawIsBlank` is
`!raw.trim()`; `parsed` is the result of `JSON.parse(raw)`, with
`Except.error` modelling a thrown parse error.  Only an
`Array.isArray` check guards acceptance: any array replaces the held
transactions wholesale and clears the error; everything else leaves the
transactions untouched and sets an error message. -/
def handleGenerate (st : DashState) (rawIsBlank : Bool)
    (parsed : Except String JValue) : DashState :=
  if rawIsBlank then { st with error := "Paste your JSON data first." }
  else
    match parsed with
    | .error msg => { st with error := msg }
    | .ok (JValue.jarr xs) => { transactions := some xs, error := "" }
    | .ok _ => { st with error := "Expected a JSON array." }

/-- Field lookup in a JSON object. -/
def lookupField (flds : List (String × JValue)) (k : String) : Option JValue :=
  (flds.find? (fun p => p.1 = k)).map (fun p => p.2)

/-- Modelled from the spec: a `RawTransaction`-shaped value (spec §3) —
an object with a string `date`, a string `terminal` and a
number-or-string `amount` (`isDeposit` and `category` optional).  The
dashboard performs no such per-element check; this definition exists only
to state that fact. -/
def recordShaped : JValue → Bool
  | .jobj flds =>
    (match lookupField flds "date" with
     | some (JValue.jstr _) => true
     | _ => false) &&
    (match lookupField flds "terminal" with
     | some (JValue.jstr _) => true
     | _ => false) &&
    (match lookupField flds "amount" with
     | some (JValue.jnum _) => true
     | some (JValue.jstr _) => true
     | _ => false)
  | _ => false

/-- The `Array.isArray` test, the only shape check `handleGenerate`
performs. -/
def isArray : JValue → Bool
  | .jarr _ => true
  | _ => false

/-! ### Concrete sample data for the closed instances below -/

/-- A purchase on 2026-02-01. -/
def txFeb01 : Tx :=
  { date := "2026-02-01 10:00:00", terminal := "UWP MARKET", amount := 5,
    isDeposit := false, category := "Groceries" }

/-- A purchase on 2026-02-03, strictly between the span endpoints. -/
def txFeb03 : Tx :=
  { date := "2026-02-03 12:30:00", terminal := "MUDIES", amount := 7,
    isDeposit := false, category := "Dining" }

/-- A purchase on 2026-02-05. -/
def txFeb05 : Tx :=
  { date := "2026-02-05 19:00:00", terminal := "SUBWAY", amount := 3,
    isDeposit := false, category := "Dining" }

/-- A deposit transaction. -/
def txDeposit : Tx :=
  { date := "2026-02-02 09:00:00", terminal := "WEB DEPOSIT", amount := 50,
    isDeposit := true, category := "Other" }

/-- Metrics with zero total spend but a large absolute coffee spend. -/
def pZero : PersonaMetrics :=
  { totalSpent := 0, coffeeTax := 90, junkFoodTax := 0, lateNightSpend := 0,
    dailyBurnRate := 10, diningTotal := 0, groceriesTotal := 0, academicTotal := 0 }

/-- Metrics with late-night fraction 0.30 and coffee spend 90. -/
def pSnack : PersonaMetrics :=
  { totalSpent := 100, coffeeTax := 90, junkFoodTax := 0, lateNightSpend := 30,
    dailyBurnRate := 10, diningTotal := 0, groceriesTotal := 0, academicTotal := 0 }

/-- An instant on 2026-04-01: month index 3 (April). -/
def aprilNow : Moment :=
  { year := 2026, monthIdx := 3, epochMs := civilMs 2026 4 1 }

/-- An instant on 2026-02-25: month index 1 (February). -/
def febNow : Moment :=
  { year := 2026, monthIdx := 1, epochMs := civilMs 2026 2 25 }

/-- A table row whose amount cell is the unparsable `"$-"`. -/
def badRow : List String :=
  ["2026-02-25 22:21:45", "", "01481 : POS-FS-UWP MARKET-37", "", "", "", "$-"]

/-- A table row that parses to a purchase of 9.99 at MUDIES. -/
def goodRow : List String :=
  ["2026-02-25 22:21:45", "", "MUDIES", "", "", "", "$-9.99"]

/-- A dashboard state already holding one record-shaped transaction. -/
def stHeld : DashState :=
  { transactions := some [JValue.jobj
      [("date", JValue.jstr "2026-02-25 22:21:45"),
       ("terminal", JValue.jstr "MUDIES"),
       ("amount", JValue.jnum 5)]],
    error := "" }

/-- A JSON array of plain numbers: a sequence, but not of record-shaped
values. -/
def numArray : JValue :=
  JValue.jarr [JValue.jnum 1, JValue.jnum 2, JValue.jnum 3]

/-! ## Helper lemmas -/

lemma foldl_add_amount :
    ∀ (l : List Tx) (init : ℚ),
      l.foldl (fun s t => s + t.amount) init = init + (l.map Tx.amount).sum
  | [], init => by simp
  | t :: rest, init => by
    simp [foldl_add_amount rest (init + t.amount), add_assoc]

lemma jsTrunc_intCast (n : Int) : jsTrunc (n : ℚ) = n := by
  simp [jsTrunc]

lemma jsTrunc_of_nonneg (q : ℚ) (hq : 0 ≤ q) : jsTrunc q = ⌊q⌋ := by
  rw [jsTrunc, Int.tdiv_eq_ediv (Rat.num_nonneg.mpr hq) (Int.natCast_nonneg q.den),
    Rat.floor_def]

lemma runwayForecast_pos (now : Moment) (bal rate : ℚ) (hb : bal > 0) (hr : rate > 0) :
    runwayForecast now bal rate =
      { runoutDate := some (now.epochMs + (jsTrunc (bal / rate) : ℚ) * 86400000),
        daysLeft := some (jsTrunc (bal / rate)),
        runningOut :=
          decide (now.epochMs + (jsTrunc (bal / rate) : ℚ) * 86400000 < semEnd now) } := by
  have hdiv : bal / rate > 0 := div_pos hb hr
  have hdd : differenceInDays (addDaysMs now.epochMs (bal / rate)) now.epochMs
      = jsTrunc (bal / rate) := by
    have h : (now.epochMs + (jsTrunc (bal / rate) : ℚ) * 86400000 - now.epochMs) / 86400000
        = ((jsTrunc (bal / rate) : Int) : ℚ) := by
      field_simp
    simp [differenceInDays, addDaysMs, h, jsTrunc, Rat.intCast_num, Rat.intCast_den]
  simp only [runwayForecast, if_pos (And.intro hb hr), if_pos hdiv, hdd]
  rfl

lemma keyLe_trans : ∀ (a b c : List Char), keyLe a b → keyLe b c → keyLe a c := by
  intro a b c hab hbc
  simp only [keyLe, decide_eq_true_eq] at *
  exact le_trans hab hbc

lemma keyLe_total : ∀ (a b : List Char), keyLe a b || keyLe b a := by
  intro a b
  simpa [keyLe] using le_total a b

lemma headD_pairwise {α : Type} (d : α) {r : α → α → Prop} :
    ∀ (s : List α), s.Pairwise r → s ≠ [] →
      s.headD d ∈ s ∧ ∀ x ∈ s, x = s.headD d ∨ r (s.headD d) x
  | [], _, h => absurd rfl h
  | c :: rest, hp, _ => by
    refine ⟨by simp, ?_⟩
    intro x hx
    rcases List.mem_cons.mp hx with h | h
    · exact Or.inl (by simp [h])
    · exact Or.inr (by simpa using (List.pairwise_cons.mp hp).1 x h)

lemma mergeSort_headD_min (l : List (List Char)) (hl : l ≠ []) :
    (l.mergeSort keyLe).headD [] ∈ l ∧
      ∀ x ∈ l, (l.mergeSort keyLe).headD [] ≤ x := by
  have hperm : (l.mergeSort keyLe).Perm l := List.mergeSort_perm l keyLe
  have hsne : l.mergeSort keyLe ≠ [] := by
    intro h
    exact hl ((h ▸ hperm).symm.eq_nil)
  have hsorted := List.sorted_mergeSort keyLe_trans keyLe_total l
  obtain ⟨hmem, hrel⟩ := headD_pairwise [] (l.mergeSort keyLe) hsorted hsne
  refine ⟨hperm.subset hmem, ?_⟩
  intro x hx
  have hx' : x ∈ l.mergeSort keyLe := hperm.mem_iff.mpr hx
  rcases hrel x hx' with h | h
  · exact h ▸ le_refl _
  · exact of_decide_eq_true h

lemma mergeSort_getLastD_max (l : List (List Char)) (hl : l ≠ []) :
    (l.mergeSort keyLe).getLastD [] ∈ l ∧
      ∀ x ∈ l, x ≤ (l.mergeSort keyLe).getLastD [] := by
  have hperm : (l.mergeSort keyLe).Perm l := List.mergeSort_perm l keyLe
  have hsne : (l.mergeSort keyLe).reverse ≠ [] := by
    intro h
    have h' : l.mergeSort keyLe = [] := by simpa using congrArg List.reverse h
    exact hl ((h' ▸ hperm).symm.eq_nil)
  have hsorted := List.sorted_mergeSort keyLe_trans keyLe_total l
  have hrev : (l.mergeSort keyLe).reverse.Pairwise (fun a b => keyLe b a = true) :=
    List.pairwise_reverse.mpr (by simpa using hsorted)
  have hlast : (l.mergeSort keyLe).getLastD [] = (l.mergeSort keyLe).reverse.headD [] := by
    simp [List.getLastD_eq_getLast?, List.headD_eq_head?, List.head?_reverse]
  obtain ⟨hmem, hrel⟩ := headD_pairwise [] (l.mergeSort keyLe).reverse hrev hsne
  rw [hlast]
  refine ⟨hperm.subset (by simpa using hmem), ?_⟩
  intro x hx
  have hx' : x ∈ (l.mergeSort keyLe).reverse := by
    simpa using hperm.mem_iff.mpr hx
  rcases hrel x hx' with h | h
  · exact h ▸ le_refl _
  · exact of_decide_eq_true h

/-! ## Claim theorems -/

/-- **C1.**  For every transaction list the purchases subset is exactly
the transactions with `isDeposit = false`; `totalSpent` is the sum of
`amount` over that subset, so a deposit's amount never contributes to it;
and deposits do still appear in the full-history listing `sortedTxns`. -/
theorem purchases_totalSpent_spec :
    (∀ (t : Tx) (ts : List Tx), t ∈ purchases ts ↔ t ∈ ts ∧ t.isDeposit = false)
    ∧ (∀ ts : List Tx, totalSpent ts = ((purchases ts).map Tx.amount).sum)
    ∧ (∀ (ts : List Tx) (d : Tx), d.isDeposit = true →
        totalSpent (ts ++ [d]) = totalSpent ts ∧ d ∈ sortedTxns (ts ++ [d])) := by
  refine ⟨?_, ?_, ?_⟩
  · intro t ts
    simp [purchases, List.mem_filter]
  · intro ts
    simpa using foldl_add_amount (purchases ts) 0
  · intro ts d hd
    constructor
    · simp [totalSpent, purchases, List.filter_append, hd]
    · exact List.mem_mergeSort.mpr (by simp)

/-- Closed instance of C1: appending a deposit leaves `totalSpent`
unchanged and the deposit appears in the listing. -/
theorem purchases_totalSpent_spec_witness :
    totalSpent ([txFeb01] ++ [txDeposit]) = totalSpent [txFeb01]
    ∧ txDeposit ∈ sortedTxns ([txFeb01] ++ [txDeposit]) :=
  purchases_totalSpent_spec.2.2 [txFeb01] txDeposit rfl

/-- **C2.**  `categorize` is total into the five fixed categories, rule
order is first-match-wins (`"UWP MARKET LAUNDRY"` is Groceries, matching
case-insensitively), and a terminal containing the letters `DC` that
matches none of the three earlier rules is Dining. -/
theorem categorize_spec :
    (∀ s : String, categorize s ∈ categoryList)
    ∧ categorize "UWP MARKET LAUNDRY" = "Groceries"
    ∧ categorize "uwp market laundry" = "Groceries"
    ∧ (∀ s : String,
        jsIncludes (jsToUpper s) "DC" = true →
        jsIncludes (jsToUpper s) "MARKET" = false →
        jsIncludes (jsToUpper s) "LAUNDRY" = false →
        jsIncludes (jsToUpper s) "WES" = false →
        jsIncludes (jsToUpper s) "PRINT" = false →
        jsIncludes (jsToUpper s) "BROWSERS" = false →
        categorize s = "Dining") := by
  refine ⟨?_, by decide, by decide, ?_⟩
  · intro s
    simp only [categorize, categoryList]
    split
    · simp
    · split
      · simp
      · split
        · simp
        · split <;> simp
  · intro s hdc hm hl hw hp hb
    simp [categorize, hdc, hm, hl, hw, hp, hb]

/-- Closed instance of C2: a terminal containing `DC` and no earlier
token is Dining. -/
theorem categorize_spec_witness :
    jsIncludes (jsToUpper "ABDCE") "DC" = true ∧ categorize "ABDCE" = "Dining" :=
  ⟨by decide,
   categorize_spec.2.2.2 "ABDCE" (by decide) (by decide) (by decide) (by decide)
     (by decide) (by decide)⟩

/-- **C3.**  `elapsedDays` of an empty purchases list is 1; for a
non-empty list it is `max(1, round((maxDate − minDate) in days))` over the
lexicographically smallest and largest date portions; in particular any
list of purchases spanning exactly 2026-02-01 through 2026-02-05 yields 4,
regardless of which intermediate days carry transactions. -/
theorem elapsedDays_spec :
    elapsedDays ([] : List Tx) = some 1
    ∧ (∀ (ps : List Tx) (m M : List Char),
        (ps.map dateKey).min? = some m →
        (ps.map dateKey).max? = some M →
        elapsedDays ps =
          (match jsDateMs M, jsDateMs m with
           | some b, some a => some (max 1 ((jsRound ((b - a) / 86400000) : Int) : ℚ))
           | _, _ => none))
    ∧ (∀ ps : List Tx, ps ≠ [] →
        (∀ d ∈ ps.map dateKey, "2026-02-01".toList ≤ d ∧ d ≤ "2026-02-05".toList) →
        "2026-02-01".toList ∈ ps.map dateKey →
        "2026-02-05".toList ∈ ps.map dateKey →
        elapsedDays ps = some 4) := by
  haveI : Std.Antisymm (fun a b : List Char => a ≤ b) :=
    ⟨fun h h' => le_antisymm h h'⟩
  have main : ∀ (ps : List Tx) (m M : List Char),
      (ps.map dateKey).min? = some m →
      (ps.map dateKey).max? = some M →
      elapsedDays ps =
        (match jsDateMs M, jsDateMs m with
         | some b, some a => some (max 1 ((jsRound ((b - a) / 86400000) : Int) : ℚ))
         | _, _ => none) := by
    intro ps m M hmin hmax
    have hne : ps ≠ [] := by
      intro h
      subst h
      simp at hmin
    have hlne : ps.map dateKey ≠ [] := by
      intro h
      exact hne (List.map_eq_nil_iff.mp h)
    have hminc :=
      (List.min?_eq_some_iff (fun a : List Char => le_refl a)
        (fun a b => min_choice a b) (fun a b c => le_min_iff)).mp hmin
    have hmaxc :=
      (List.max?_eq_some_iff (fun a : List Char => le_refl a)
        (fun a b => max_choice a b) (fun a b c => max_le_iff)).mp hmax
    obtain ⟨hh1, hh2⟩ := mergeSort_headD_min (ps.map dateKey) hlne
    obtain ⟨hl1, hl2⟩ := mergeSort_getLastD_max (ps.map dateKey) hlne
    have hhead : ((ps.map dateKey).mergeSort keyLe).headD [] = m :=
      le_antisymm (hh2 m hminc.1) (hminc.2 _ hh1)
    have hlast : ((ps.map dateKey).mergeSort keyLe).getLastD [] = M :=
      le_antisymm (hmaxc.2 _ hl1) (hl2 M hmaxc.1)
    cases ps with
    | nil => exact absurd rfl hne
    | cons p rest =>
      simp only [elapsedDays]
      rw [hhead, hlast]
  refine ⟨rfl, main, ?_⟩
  intro ps hne hbound hm1 hm5
  have hmin : (ps.map dateKey).min? = some "2026-02-01".toList :=
    (List.min?_eq_some_iff (fun a : List Char => le_refl a)
      (fun a b => min_choice a b) (fun a b c => le_min_iff)).mpr
      ⟨hm1, fun b hb => (hbound b hb).1⟩
  have hmax : (ps.map dateKey).max? = some "2026-02-05".toList :=
    (List.max?_eq_some_iff (fun a : List Char => le_refl a)
      (fun a b => max_choice a b) (fun a b c => max_le_iff)).mpr
      ⟨hm5, fun b hb => (hbound b hb).2⟩
  rw [main ps _ _ hmin hmax]
  with_unfolding_all decide

/-- Closed instance of C3: purchases on Feb 1, Feb 3 and Feb 5 of 2026
span four elapsed days. -/
theorem elapsedDays_spec_witness :
    elapsedDays [txFeb01, txFeb03, txFeb05] = some 4 :=
  elapsedDays_spec.2.2 [txFeb01, txFeb03, txFeb05] (by decide) (by decide)
    (by decide) (by decide)

/-- **C4.**  `getTimeBucket` sends every transaction to exactly one of the
four fixed buckets with closed-open hour boundaries: `[5,11)` Morning,
`[11,16)` Lunch, `[16,21)` Dinner, the rest Late Night; hours 11, 16, 21,
4 and 5 land in Lunch, Dinner, Late Night, Late Night and Morning. -/
theorem getTimeBucket_spec :
    (∀ s : String, getTimeBucket s ∈ bucketList)
    ∧ bucketList.Nodup
    ∧ (∀ (s : String) (h : Int), hourOf s = some h →
        ((5 ≤ h ∧ h < 11) → getTimeBucket s = "Morning")
        ∧ ((11 ≤ h ∧ h < 16) → getTimeBucket s = "Lunch")
        ∧ ((16 ≤ h ∧ h < 21) → getTimeBucket s = "Dinner")
        ∧ ((21 ≤ h ∧ h < 24 ∨ 0 ≤ h ∧ h < 5) → getTimeBucket s = "Late Night"))
    ∧ getTimeBucket "2026-02-25 11:21:45" = "Lunch"
    ∧ getTimeBucket "2026-02-25 16:21:45" = "Dinner"
    ∧ getTimeBucket "2026-02-25 21:21:45" = "Late Night"
    ∧ getTimeBucket "2026-02-25 04:21:45" = "Late Night"
    ∧ getTimeBucket "2026-02-25 05:21:45" = "Morning" := by
  refine ⟨?_, by decide, ?_, by decide, by decide, by decide, by decide, by decide⟩
  · intro s
    simp only [getTimeBucket, bucketList]
    cases hourOf s with
    | none => simp
    | some h =>
      dsimp only
      split_ifs <;> simp
  · intro s h hh
    simp only [getTimeBucket, hh]
    refine ⟨?_, ?_, ?_, ?_⟩ <;> intro hcond <;> split_ifs <;> first | rfl | omega

/-- Closed instance of C4: hour 13 parses and lands in Lunch. -/
theorem getTimeBucket_spec_witness :
    hourOf "2026-02-25 13:05:00" = some 13
    ∧ getTimeBucket "2026-02-25 13:05:00" = "Lunch" :=
  ⟨by decide,
   (getTimeBucket_spec.2.2.1 "2026-02-25 13:05:00" 13 (by decide)).2.1 (by decide)⟩

/-- **C10.**  `getTimeBucket` is total over arbitrary strings: it always
returns one of the four buckets without failing, a missing time portion
parses as hour 0 (Late Night), and an unparsable or out-of-range hour
falls into Late Night. -/
theorem getTimeBucket_total_spec :
    (∀ s : String, getTimeBucket s ∈ bucketList)
    ∧ (∀ s : String, hourOf s = none → getTimeBucket s = "Late Night")
    ∧ (∀ (s : String) (h : Int), hourOf s = some h → h < 0 ∨ 24 ≤ h →
        getTimeBucket s = "Late Night")
    ∧ getTimeBucket "" = "Late Night"
    ∧ hourOf "2026-02-01" = some 0
    ∧ getTimeBucket "2026-02-01" = "Late Night"
    ∧ hourOf "2026-02-01 xx:30:00" = none
    ∧ getTimeBucket "2026-02-01 xx:30:00" = "Late Night" := by
  refine ⟨?_, ?_, ?_, by decide, by decide, by decide, by decide, by decide⟩
  · intro s
    simp only [getTimeBucket, bucketList]
    cases hourOf s with
    | none => simp
    | some h =>
      dsimp only
      split_ifs <;> simp
  · intro s hnone
    simp [getTimeBucket, hnone]
  · intro s h hh hout
    simp only [getTimeBucket, hh]
    split_ifs <;> first | rfl | omega

/-- Closed instance of C10: an unparsable hour token and an out-of-range
hour both land in Late Night. -/
theorem getTimeBucket_total_spec_witness :
    getTimeBucket "2026-02-01 zz:30:00" = "Late Night"
    ∧ getTimeBucket "2026-02-01 99:30:00" = "Late Night" :=
  ⟨getTimeBucket_total_spec.2.1 "2026-02-01 zz:30:00" (by decide),
   getTimeBucket_total_spec.2.2.1 "2026-02-01 99:30:00" 99 (by decide)
     (by decide)⟩

/-- Counterexample to C5 as stated: at `totalSpent = 0` the absolute
threshold of rule 2 can still fire — metrics with zero total spend and
coffee spend 90 yield "The Caffeine Addict", which is neither the
default nor a rule-6/7 persona. -/
theorem getPersona_zero_counterexample :
    pZero.totalSpent = 0
    ∧ getPersona pZero = "The Caffeine Addict"
    ∧ "The Caffeine Addict" ∉ ["The Scholar", "The Budget Master", "The Campus Explorer"] := by
  refine ⟨rfl, ?_, by decide⟩
  norm_num [getPersona, lnPct, coffPct, dinePct, grocPct, pZero]

/-- **C5 (amended).**  `getPersona` evaluates its rules strictly top to
bottom: a late-night fraction above 0.25 always yields
"The Midnight Snacker" irrespective of `coffeeTax`; and whenever
`totalSpent = 0` every fraction is treated as 0, so only the default or
the absolute-threshold conditions (`coffeeTax > 80` of rule 2,
`junkFoodTax > 40`, `academicTotal > 25`, `dailyBurnRate < 8`) can
fire. -/
theorem getPersona_spec :
    (∀ p : PersonaMetrics, lnPct p > 25 / 100 → getPersona p = "The Midnight Snacker")
    ∧ getPersona pSnack = "The Midnight Snacker"
    ∧ (∀ p : PersonaMetrics, p.totalSpent = 0 →
        lnPct p = 0 ∧ coffPct p = 0 ∧ dinePct p = 0 ∧ grocPct p = 0
        ∧ getPersona p =
            (if p.coffeeTax > 80 then "The Caffeine Addict"
             else if p.junkFoodTax > 40 then "The Late-Night Gourmet"
             else if p.academicTotal > 25 then "The Scholar"
             else if p.dailyBurnRate < 8 then "The Budget Master"
             else "The Campus Explorer")) := by
  refine ⟨?_, ?_, ?_⟩
  · intro p hp
    simp [getPersona, hp]
  · norm_num [getPersona, lnPct, pSnack]
  · intro p h0
    have hln : lnPct p = 0 := by simp [lnPct, h0]
    have hcoff : coffPct p = 0 := by simp [coffPct, h0]
    have hdine : dinePct p = 0 := by simp [dinePct, h0]
    have hgroc : grocPct p = 0 := by simp [grocPct, h0]
    refine ⟨hln, hcoff, hdine, hgroc, ?_⟩
    norm_num [getPersona, hln, hcoff, hdine, hgroc]

/-- Closed instance of C5 (amended): the fraction-0.30 and coffee-90
metrics select "The Midnight Snacker"; zero-total metrics have all
fractions 0. -/
theorem getPersona_spec_witness :
    getPersona pSnack = "The Midnight Snacker" ∧ lnPct pZero = 0 :=
  ⟨getPersona_spec.1 pSnack (by norm_num [lnPct, pSnack]),
   (getPersona_spec.2.2 pZero rfl).1⟩

/-- Counterexample to C6 as stated: in April (month index 3) the code's
semester end is April 30, not the December 15 the claim's "month index ≤
March" boundary implies — the urgency flag is `false` although the runout
date precedes the claim's semester end; and a fractional `daysToZero` is
truncated before being added to `now`. -/
theorem runway_counterexample :
    aprilNow.monthIdx = 3
    ∧ (runwayForecast aprilNow 5000 25).runoutDate = some (civilMs 2026 10 18)
    ∧ civilMs 2026 10 18 < claimSemEnd aprilNow
    ∧ (runwayForecast aprilNow 5000 25).runningOut = false
    ∧ (runwayForecast aprilNow 10 4).runoutDate = some (civilMs 2026 4 3)
    ∧ aprilNow.epochMs + (10 / 4 : ℚ) * 86400000 ≠ civilMs 2026 4 3 := by
  have h1 := runwayForecast_pos aprilNow 5000 25 (by norm_num) (by norm_num)
  have h2 := runwayForecast_pos aprilNow 10 4 (by norm_num) (by norm_num)
  have ht1 : jsTrunc ((5000 : ℚ) / 25) = 200 := by
    have e : (5000 : ℚ) / 25 = ((200 : Int) : ℚ) := by norm_num
    rw [e, jsTrunc_intCast]
  have ht2 : jsTrunc ((10 : ℚ) / 4) = 2 := by
    rw [jsTrunc_of_nonneg _ (by norm_num)]
    norm_num
  have e41 : daysFromCivil 2026 4 1 = 20544 := by decide
  have e1018 : daysFromCivil 2026 10 18 = 20744 := by decide
  have e1215 : daysFromCivil 2026 12 15 = 20802 := by decide
  have e43 : daysFromCivil 2026 4 3 = 20546 := by decide
  have e430 : daysFromCivil 2026 4 30 = 20573 := by decide
  refine ⟨rfl, ?_, ?_, ?_, ?_, ?_⟩
  · rw [h1]
    simp only [aprilNow, civilMs, ht1, e41, e1018]
    norm_num
  · simp only [claimSemEnd, aprilNow, civilMs, e1018, e1215]
    norm_num
  · rw [h1]
    simp only [aprilNow, semEnd, civilMs, ht1, e41, e430]
    rw [decide_eq_false_iff_not]
    norm_num
  · rw [h2]
    simp only [aprilNow, civilMs, ht2, e41, e43]
    norm_num
  · simp only [aprilNow, civilMs, e41, e43]
    norm_num

/-- **C6 (amended).**  With positive balance and burn rate the forecast
yields `daysToZero = balance / rate` and a runout date of `now` plus the
truncated day count (integral counts, such as 500 / 25 = 20, are added
exactly); urgency holds iff the runout date is before the semester end,
which is April 30 for month indices 0–3 (January through April) and
December 15 otherwise; with a non-positive balance or rate no forecast is
produced. -/
theorem runway_spec :
    (∀ (now : Moment) (bal rate : ℚ), bal > 0 → rate > 0 →
        runwayForecast now bal rate =
          { runoutDate := some (now.epochMs + (jsTrunc (bal / rate) : ℚ) * 86400000),
            daysLeft := some (jsTrunc (bal / rate)),
            runningOut :=
              decide (now.epochMs + (jsTrunc (bal / rate) : ℚ) * 86400000 < semEnd now) })
    ∧ (∀ (now : Moment) (bal rate : ℚ), bal ≤ 0 ∨ rate ≤ 0 →
        runwayForecast now bal rate =
          { runoutDate := none, daysLeft := none, runningOut := false })
    ∧ (∀ now : Moment, now.monthIdx ≤ 3 → semEnd now = civilMs now.year 4 30)
    ∧ (∀ now : Moment, 3 < now.monthIdx → semEnd now = civilMs now.year 12 15)
    ∧ (500 : ℚ) / 25 = 20
    ∧ (∀ now : Moment,
        runwayForecast now 500 25 =
          { runoutDate := some (now.epochMs + 20 * 86400000),
            daysLeft := some 20,
            runningOut := decide (now.epochMs + 20 * 86400000 < semEnd now) }) := by
  have hpos := runwayForecast_pos
  refine ⟨hpos, ?_, ?_, ?_, by norm_num, ?_⟩
  · intro now bal rate h
    have hneg : ¬(bal > 0 ∧ rate > 0) := by
      rcases h with h | h
      · exact fun hc => absurd hc.1 (not_lt.mpr h)
      · exact fun hc => absurd hc.2 (not_lt.mpr h)
    simp only [runwayForecast, if_neg hneg]
    norm_num
  · intro now h
    simp [semEnd, h]
  · intro now h
    simp [semEnd, Nat.not_le.mpr h]
  · intro now
    have h := hpos now 500 25 (by norm_num) (by norm_num)
    have h20 : (500 : ℚ) / 25 = ((20 : Int) : ℚ) := by norm_num
    rw [h, h20, jsTrunc_intCast]
    norm_num

/-- Closed instance of C6 (amended): concrete forecast for balance 500
and burn rate 25 in February 2026. -/
theorem runway_spec_witness :
    runwayForecast febNow 500 25 =
      { runoutDate := some (febNow.epochMs + (jsTrunc ((500 : ℚ) / 25) : ℚ) * 86400000),
        daysLeft := some (jsTrunc ((500 : ℚ) / 25)),
        runningOut :=
          decide (febNow.epochMs + (jsTrunc ((500 : ℚ) / 25) : ℚ) * 86400000 < semEnd febNow) } :=
  runway_spec.1 febNow 500 25 (by norm_num) (by norm_num)

set_option maxRecDepth 100000 in
/-- Counterexample to C7 as stated: the scraper's entire caller-visible
result is the transaction list, and that list is identical for an empty
batch and a batch with one rejected record — no rejection count is
surfaced alongside it. -/
theorem scrape_no_rejection_channel :
    scrapeCurrentPage [badRow] = scrapeCurrentPage []
    ∧ rejectedCount [badRow] = 1
    ∧ rejectedCount [] = 0 := by
  refine ⟨by with_unfolding_all decide, by decide, rfl⟩

set_option maxRecDepth 100000 in
/-- **C7 (amended).**  A record whose amount parses to `NaN` is dropped
from the canonical list without throwing, but the scraper maintains no
rejection count: its callers receive only the normalized list. -/
theorem scrape_drops_nan_spec :
    (∀ (pre post : List (List String)) (r : List String), parseRow r = none →
        scrapeCurrentPage (pre ++ r :: post) = scrapeCurrentPage (pre ++ post))
    ∧ parseRow badRow = none
    ∧ scrapeCurrentPage [goodRow, badRow] = scrapeCurrentPage [goodRow]
    ∧ (scrapeCurrentPage [goodRow]).length = 1 := by
  refine ⟨?_, by decide, by with_unfolding_all decide, by with_unfolding_all decide⟩
  intro pre post r hr
  simp [scrapeCurrentPage, List.filterMap_append, hr]

/-- Closed instance of C7 (amended): dropping the `"$-"` row from a batch
leaves exactly the surviving rows. -/
theorem scrape_drops_nan_spec_witness :
    scrapeCurrentPage ([goodRow] ++ badRow :: []) = scrapeCurrentPage ([goodRow] ++ []) :=
  scrape_drops_nan_spec.1 [goodRow] [] badRow (by decide)

/-- Counterexample to C8 as stated: a JSON array of plain numbers is not
a sequence of record-shaped values, yet `handleGenerate` accepts it
wholesale — the held transactions are replaced and no failure is
reported. -/
theorem handleGenerate_counterexample :
    recordShaped (JValue.jnum 1) = false
    ∧ (handleGenerate stHeld false (Except.ok numArray)).transactions
        = some [JValue.jnum 1, JValue.jnum 2, JValue.jnum 3]
    ∧ (handleGenerate stHeld false (Except.ok numArray)).error = ""
    ∧ (handleGenerate stHeld false (Except.ok numArray)).transactions
        ≠ stHeld.transactions := by
  refine ⟨rfl, rfl, rfl, ?_⟩
  simp [handleGenerate, stHeld, numArray]

/-- **C8 (amended).**  A payload that fails to parse or parses to a
non-array makes ingestion fail immediately with the previous state intact
(the held transaction list, and hence every metric derived from it, is
unchanged) and an error reported; element shapes are not validated — any
JSON array is accepted wholesale. -/
theorem handleGenerate_spec :
    (∀ (st : DashState) (v : JValue), isArray v = false →
        handleGenerate st false (Except.ok v) = { st with error := "Expected a JSON array." })
    ∧ (∀ (st : DashState) (msg : String),
        handleGenerate st false (Except.error msg) = { st with error := msg })
    ∧ (∀ (st : DashState) (blank : Bool) (parsed : Except String JValue),
        (handleGenerate st blank parsed).transactions = st.transactions
        ∨ ∃ xs, parsed = Except.ok (JValue.jarr xs)
            ∧ handleGenerate st blank parsed = { transactions := some xs, error := "" })
    ∧ (∀ (st : DashState) (xs : List JValue),
        handleGenerate st false (Except.ok (JValue.jarr xs))
          = { transactions := some xs, error := "" }) := by
  refine ⟨?_, ?_, ?_, ?_⟩
  · intro st v hv
    cases v <;> simp_all [handleGenerate, isArray]
  · intro st msg
    rfl
  · intro st blank parsed
    cases blank with
    | true => exact Or.inl rfl
    | false =>
      cases parsed with
      | error msg => exact Or.inl rfl
      | ok v =>
        cases v with
        | jarr xs => exact Or.inr ⟨xs, rfl, rfl⟩
        | jnull => exact Or.inl rfl
        | jbool b => exact Or.inl rfl
        | jnum q => exact Or.inl rfl
        | jstr s => exact Or.inl rfl
        | jobj flds => exact Or.inl rfl
  · intro st xs
    rfl

/-- Closed instance of C8 (amended): a non-array payload only sets the
error message. -/
theorem handleGenerate_spec_witness :
    handleGenerate stHeld false (Except.ok (JValue.jnum 7))
      = { stHeld with error := "Expected a JSON array." } :=
  handleGenerate_spec.1 stHeld (JValue.jnum 7) rfl

/-- Counterexample to C9 as stated: on the claim's own example input the
claimed step order (with no trim between the colon cut and the prefix
strip) yields `"POS-FS-UWP MARKET"`, while `cleanTerminal` yields
`"UWP MARKET"` — the two conjuncts of the claim cannot both hold. -/
theorem cleanTerminal_counterexample :
    cleanTerminal "01481 : POS-FS-UWP MARKET-37" = "UWP MARKET"
    ∧ claimCleanSteps "01481 : POS-FS-UWP MARKET-37" = "POS-FS-UWP MARKET"
    ∧ ("POS-FS-UWP MARKET" : String) ≠ "UWP MARKET" := by
  exact ⟨by decide, by decide, by decide⟩

/-- **C9 (amended).**  `cleanTerminal` applies, in order: colon cut
keeping the remainder, a trim of that remainder, the case-insensitive
`POS-FS-` prefix strip, the trailing dash-digits strip, the trailing
lone-dash strip, and a final trim; it is total, and on the claim's
example it yields `"UWP MARKET"`. -/
theorem cleanTerminal_spec :
    (∀ raw : String,
        cleanTerminal raw =
          String.mk (trimChars (stripTrailDash (stripTrailNum (stripPosFs
            (trimChars (afterColonPlain raw)))))))
    ∧ cleanTerminal "01481 : POS-FS-UWP MARKET-37" = "UWP MARKET"
    ∧ cleanTerminal "" = "" := by
  refine ⟨?_, by decide, by decide⟩
  intro raw
  have h : afterColon raw = trimChars (afterColonPlain raw) := by
    simp only [afterColon, afterColonPlain, String.toList]
    by_cases hc : containsSub [':'] raw.data = true <;> simp [hc]
  simp [cleanTerminal, h]

end Watcard
